import Mathlib

/-!
Verification of the expense-tracker application (`src/expense_tracker.py`).

The development is a shallow embedding of the program's record store,
receipt-asset manager and report generator:

* SQLite rows of the `expenses` table become the structure `Record`; the
  table itself becomes `Store` (its `nextId` models the AUTOINCREMENT
  counter, which always hands out an id strictly larger than every id in
  use).
* SQL text comparison (`memcmp` on UTF-8 bytes) is modelled by the
  lexicographic order on `List Char`; on UTF-8 encoded strings byte order
  and code-point order agree.
* `ORDER BY` clauses become sorts by the corresponding relation; since the
  sort keys `(date, id)` are injective on well-formed stores, the sorted
  sequence is unique, so `insertionSort` is a faithful model of any SQL
  sort.
* SQLite `LIKE` is modelled by `likeMatch` — `%`/`_` wildcards, other
  characters compared ASCII-case-insensitively (SQLite's documented
  default, no `case_sensitive_like` pragma is set by the program).
* Python `float(...)` on finite decimal literals becomes `pyFloat`
  (special values such as `inf`/`nan` and underscore separators are not
  modelled), `str.strip()` becomes `pyStrip`, `.replace(",", "")` becomes
  `removeCommas`, and `datetime.strptime(v, "%Y-%m-%d")` becomes
  `parseDateStr` (ASCII digits).
* Tk widgets only deliver strings; a snapshot of the form's inputs is the
  structure `Form`.  UI drawing (coordinates, fonts, Persian shaping) is
  not modelled; the report generator is modelled by the content it places
  on the document: rows in order with their six column values, and the
  embedded images with their drawn sizes.
-/

namespace ExpenseTracker

/-! ### Characters, digits and small parsing helpers -/

/-- The decimal digit character for `n < 10`. -/
def digitChar (n : Nat) : Char := Char.ofNat (48 + n)

/-- ASCII decimal digit test (Python's `\d` restricted to ASCII). -/
def isDigitChar (c : Char) : Bool := 48 ≤ c.toNat && c.toNat ≤ 57

/-- Numeric value of a digit character. -/
def digitVal (c : Char) : Nat := c.toNat - 48

/-- Value of a big-endian list of decimal digit characters. -/
def natOfDigits (l : List Char) : Nat :=
  l.foldl (fun acc c => acc * 10 + digitVal c) 0

/-- Decimal digits of `n`, most significant first; structural recursion on a
fuel argument (the fuel bounds the value, so it never runs out). -/
def natDigitsGo : Nat → Nat → List Char
  | 0, n => [digitChar (n % 10)]
  | fuel + 1, n =>
    if n < 10 then [digitChar n]
    else natDigitsGo fuel (n / 10) ++ [digitChar (n % 10)]

/-- Decimal digit characters of `n`, most significant first (models `str(n)`). -/
def natDigits (n : Nat) : List Char := natDigitsGo n n

/-- Models Python `str(n)` for a natural number. -/
def natStr (n : Nat) : String := ⟨natDigits n⟩

/-- Models Python `str.strip()`: drop whitespace at both ends. -/
def stripChars (l : List Char) : List Char :=
  ((l.dropWhile Char.isWhitespace).reverse.dropWhile Char.isWhitespace).reverse

/-- Models Python `str.strip()` on a `String`. -/
def pyStrip (s : String) : String := ⟨stripChars s.data⟩

/-- Models `.replace(",", "")`: remove every comma. -/
def removeCommas (s : String) : String := ⟨s.data.filter (fun c => c ≠ ',')⟩

/-- Models Python `str.split('-')`. -/
def splitOnDash : List Char → List (List Char)
  | [] => [[]]
  | c :: cs =>
    let r := splitOnDash cs
    if c = '-' then [] :: r
    else
      match r with
      | [] => [[c]]
      | h :: t => (c :: h) :: t

/-! ### Dates: `parse_date_str` -/

/-- A parsed calendar date (result of `datetime.strptime(v, "%Y-%m-%d").date()`). -/
structure Date where
  year : Nat
  month : Nat
  day : Nat
  deriving DecidableEq

/-- Gregorian leap-year rule. -/
def isLeapYear (y : Nat) : Bool := (y % 4 = 0 && y % 100 ≠ 0) || y % 400 = 0

/-- Days in a month of the Gregorian calendar. -/
def daysInMonth (y m : Nat) : Nat :=
  if m = 2 then (if isLeapYear y then 29 else 28)
  else if m = 4 ∨ m = 6 ∨ m = 9 ∨ m = 11 then 30 else 31

/-- Models `parse_date_str` = `datetime.strptime(value, "%Y-%m-%d").date()`:
three dash-separated fields of 1-4 / 1-2 / 1-2 ASCII digits naming a valid
calendar date (year at least 1). -/
def parseDateStr (s : String) : Option Date :=
  match splitOnDash s.data with
  | [ys, ms, ds] =>
    if ys = [] ∨ 4 < ys.length ∨ ¬ ys.all isDigitChar then none
    else if ms = [] ∨ 2 < ms.length ∨ ¬ ms.all isDigitChar then none
    else if ds = [] ∨ 2 < ds.length ∨ ¬ ds.all isDigitChar then none
    else
      let y := natOfDigits ys
      let m := natOfDigits ms
      let d := natOfDigits ds
      if 1 ≤ y ∧ 1 ≤ m ∧ m ≤ 12 ∧ 1 ≤ d ∧ d ≤ daysInMonth y m then
        some ⟨y, m, d⟩
      else none
  | _ => none

/-! ### Python `float` on decimal literals -/

/-- Core of `pyFloat`, on a whitespace-stripped character list. -/
def pyFloatCore (cs0 : List Char) : Option ℚ :=
  let signAndRest : ℚ × List Char :=
    match cs0 with
    | '+' :: t => (1, t)
    | '-' :: t => (-1, t)
    | t => (1, t)
  let sign := signAndRest.1
  let cs := signAndRest.2
  let intDigits := cs.takeWhile isDigitChar
  let rest1 := cs.dropWhile isDigitChar
  let fracAndRest : List Char × List Char :=
    match rest1 with
    | '.' :: t => (t.takeWhile isDigitChar, t.dropWhile isDigitChar)
    | t => ([], t)
  let fracDigits := fracAndRest.1
  let rest2 := fracAndRest.2
  if intDigits = [] ∧ fracDigits = [] then none
  else
    let mantissa : ℚ :=
      sign * ((natOfDigits intDigits : ℚ) +
        (natOfDigits fracDigits : ℚ) / (10 : ℚ) ^ fracDigits.length)
    match rest2 with
    | [] => some mantissa
    | e :: t =>
      if e = 'e' ∨ e = 'E' then
        let esignAndRest : Int × List Char :=
          match t with
          | '+' :: u => (1, u)
          | '-' :: u => (-1, u)
          | u => (1, u)
        let eDigits := esignAndRest.2.takeWhile isDigitChar
        let rest3 := esignAndRest.2.dropWhile isDigitChar
        if eDigits = [] ∨ rest3 ≠ [] then none
        else some (mantissa * (10 : ℚ) ^ (esignAndRest.1 * (natOfDigits eDigits : Int)))
      else none

/-- Models Python `float(s)` on finite decimal literals: optional surrounding
whitespace, optional sign, digits with optional fraction and exponent.
`inf`, `nan` and underscore separators are outside the model. -/
def pyFloat (s : String) : Option ℚ := pyFloatCore (stripChars s.data)

/-! ### The data model: `expenses` table rows -/

/-- One row of the `expenses` table. -/
structure Record where
  id : Nat
  date : String
  category : String
  amount : ℚ
  description : String
  mission : String
  image_path : Option String
  deriving DecidableEq

/-- The persisted store: the table plus the AUTOINCREMENT counter (SQLite
hands out ids strictly larger than every id ever used). -/
structure Store where
  records : List Record
  nextId : Nat
  deriving DecidableEq

/-- Store invariants: unique ids, ids below the AUTOINCREMENT counter,
non-negative amounts (all writes are validated). -/
def WF (s : Store) : Prop :=
  (s.records.map Record.id).Nodup ∧
  (∀ r ∈ s.records, r.id < s.nextId) ∧
  (∀ r ∈ s.records, 0 ≤ r.amount)

instance (s : Store) : Decidable (WF s) := by
  unfold WF; infer_instance

/-! ### The two SQL orderings -/

/-- `ORDER BY date ASC, id ASC` (the export query): SQLite compares the
TEXT `date` column byte-wise, i.e. lexicographically. -/
def ReportLE (a b : Record) : Prop :=
  a.date.data < b.date.data ∨ (a.date.data = b.date.data ∧ a.id ≤ b.id)

/-- `ORDER BY date DESC, id DESC` (the listing queries). -/
def ListingLE (a b : Record) : Prop := ReportLE b a

instance : DecidableRel ReportLE := fun a b => by
  unfold ReportLE; infer_instance

instance : DecidableRel ListingLE := fun a b => by
  unfold ListingLE ReportLE; infer_instance

instance : IsTotal Record ReportLE := by
  constructor
  intro a b
  unfold ReportLE
  rcases lt_trichotomy a.date.data b.date.data with h | h | h
  · exact Or.inl (Or.inl h)
  · rcases Nat.le_total a.id b.id with h2 | h2
    · exact Or.inl (Or.inr ⟨h, h2⟩)
    · exact Or.inr (Or.inr ⟨h.symm, h2⟩)
  · exact Or.inr (Or.inl h)

instance : IsTrans Record ReportLE := by
  constructor
  intro a b c hab hbc
  unfold ReportLE at hab hbc ⊢
  rcases hab with h1 | ⟨e1, i1⟩
  · rcases hbc with h2 | ⟨e2, _⟩
    · exact Or.inl (lt_trans h1 h2)
    · exact Or.inl (lt_of_lt_of_eq h1 e2)
  · rcases hbc with h2 | ⟨e2, i2⟩
    · exact Or.inl (lt_of_eq_of_lt e1 h2)
    · exact Or.inr ⟨e1.trans e2, Nat.le_trans i1 i2⟩

instance : IsTotal Record ListingLE := by
  constructor
  intro a b
  exact (IsTotal.total (r := ReportLE) b a)

instance : IsTrans Record ListingLE := by
  constructor
  intro a b c hab hbc
  exact IsTrans.trans (r := ReportLE) c b a hbc hab

/-! ### Store queries -/

/-- `SELECT * FROM expenses ORDER BY date DESC, id DESC` (`load_expenses`,
the `list_all` operation). -/
def listAll (s : Store) : List Record :=
  List.insertionSort ListingLE s.records

/-- ASCII lower-casing, as SQLite's default `LIKE` applies it (`A`-`Z` only). -/
def lowerAscii (c : Char) : Char :=
  if 65 ≤ c.toNat ∧ c.toNat ≤ 90 then Char.ofNat (c.toNat + 32) else c

/-- All suffixes of a character list, longest first, ending with `[]`. -/
def tailsList : List Char → List (List Char)
  | [] => [[]]
  | c :: cs => (c :: cs) :: tailsList cs

/-- SQLite `LIKE` pattern matching: `%` matches any run (formulated as: the
rest of the pattern matches some suffix), `_` one character, anything else
matches ASCII-case-insensitively. -/
def likeMatch : List Char → List Char → Bool
  | [], s => s.isEmpty
  | '%' :: ps, s => (tailsList s).any (fun t => likeMatch ps t)
  | '_' :: ps, s =>
    match s with
    | [] => false
    | _ :: cs => likeMatch ps cs
  | p :: ps, s =>
    match s with
    | [] => false
    | c :: cs => decide (lowerAscii p = lowerAscii c) && likeMatch ps cs

/-- The WHERE clause assembled by `filter_expenses`: a `date >= ?` /
`date <= ?` / `mission LIKE '%…%'` conjunct for each supplied input (the
mission input counts as supplied when non-empty, matching `if mission:`). -/
def filterPred (fromS toS : Option String) (mission : String) (r : Record) : Bool :=
  (match fromS with
   | none => true
   | some f => decide (f.data ≤ r.date.data)) &&
  (match toS with
   | none => true
   | some t => decide (r.date.data ≤ t.data)) &&
  (if mission = "" then true
   else likeMatch (('%' :: mission.data) ++ ['%']) r.mission.data)

/-- `filter_expenses`: the assembled query
`SELECT * FROM expenses WHERE … ORDER BY date DESC, id DESC`. -/
def filterExpenses (s : Store) (fromS toS : Option String) (mission : String) :
    List Record :=
  List.insertionSort ListingLE (s.records.filter (filterPred fromS toS mission))

/-- Case-sensitive substring containment (what the spec's words describe for
the mission filter); `isPrefixList n h` tests whether `n` starts `h`. -/
def isPrefixList : List Char → List Char → Bool
  | [], _ => true
  | _ :: _, [] => false
  | a :: as, b :: bs => a = b && isPrefixList as bs

/-- Case-sensitive substring containment of `needle` in `hay`. -/
def containsSubList (needle : List Char) : List Char → Bool
  | [] => isPrefixList needle []
  | c :: cs => isPrefixList needle (c :: cs) || containsSubList needle cs

/-! ### The form snapshot and validation -/

/-- A snapshot of the strings held by the entry widgets when Add/Update is
pressed, plus the ambient `current_image_path` field (the plain-`Entry`
branch of the date widget is modelled; `tkcalendar` is an optional
dependency). -/
structure Form where
  dateInput : String
  categoryInput : String
  amountInput : String
  descriptionInput : String
  missionInput : String
  imagePathInput : String
  currentImagePath : Option String
  deriving DecidableEq

/-- The amount-parsing pipeline shared by `_validate_form` and
`_get_form_values`: `self.amount_var.get().strip().replace(",", "")` fed to
`float(...)`. -/
def amountFromInput (s : String) : Option ℚ := pyFloat (removeCommas (pyStrip s))

/-- Models `_validate_form`: `some msg` is a failed validation (the
`(False, msg)` return), `none` is success. -/
def validateForm (f : Form) : Option String :=
  match parseDateStr (pyStrip f.dateInput) with
  | none => some "Invalid date. Use YYYY-MM-DD."
  | some _ =>
    if pyStrip f.categoryInput = "" then some "Category is required."
    else
      match amountFromInput f.amountInput with
      | none => some "Amount must be a number."
      | some a =>
        if a < 0 then some "Amount cannot be negative." else none

/-- The tuple built by `_get_form_values`. -/
structure FormValues where
  date : String
  category : String
  amount : ℚ
  description : String
  mission : String
  image_path : Option String
  deriving DecidableEq

/-- Models `_get_form_values`; `none` models `float(...)` raising (the
method is only called after a successful `_validate_form`).  The image path
is `current_image_path or image_path_var.strip() or None` with `""`
coerced to `None` — Python truthiness on the two strings. -/
def getFormValues (f : Form) : Option FormValues :=
  match amountFromInput f.amountInput with
  | none => none
  | some a =>
    let fromVar : Option String :=
      if pyStrip f.imagePathInput = "" then none else some (pyStrip f.imagePathInput)
    let ip : Option String :=
      match f.currentImagePath with
      | some p => if p = "" then fromVar else some p
      | none => fromVar
    some { date := pyStrip f.dateInput, category := pyStrip f.categoryInput,
           amount := a, description := pyStrip f.descriptionInput,
           mission := pyStrip f.missionInput, image_path := ip }

/-! ### The three mutations -/

/-- Outcome of `add_expense`. -/
inductive AddResult
  | ok
  | validationError (msg : String)
  | internalError
  deriving DecidableEq

/-- Models `add_expense`: validate, read the form, then
`INSERT INTO expenses(date, category, amount, description, mission,
image_path) VALUES (?, ?, ?, ?, ?, ?)`; AUTOINCREMENT assigns `nextId`.
`internalError` models the unreachable `float(...)` exception after a
successful validation. -/
def addExpense (s : Store) (f : Form) : AddResult × Store :=
  match validateForm f with
  | some e => (.validationError e, s)
  | none =>
    match getFormValues f with
    | none => (.internalError, s)
    | some v =>
      (.ok,
        { records := s.records ++
            [{ id := s.nextId, date := v.date, category := v.category,
               amount := v.amount, description := v.description,
               mission := v.mission, image_path := v.image_path }],
          nextId := s.nextId + 1 })

/-- Outcome of `edit_expense`. -/
inductive EditResult
  | ok
  | noSelection
  | validationError (msg : String)
  | internalError
  deriving DecidableEq

/-- The row transformation of `UPDATE expenses SET … WHERE id=?`. -/
def sqlUpdateRow (v : FormValues) (i : Nat) (r : Record) : Record :=
  if r.id = i then
    { r with date := v.date, category := v.category, amount := v.amount,
             description := v.description, mission := v.mission,
             image_path := v.image_path }
  else r

/-- Models `edit_expense`: bail out on no selection, validate, then run the
UPDATE (which touches however many rows match the id — possibly none). -/
def editExpense (s : Store) (selected : Option Nat) (f : Form) :
    EditResult × Store :=
  match selected with
  | none => (.noSelection, s)
  | some i =>
    match validateForm f with
    | some e => (.validationError e, s)
    | none =>
      match getFormValues f with
      | none => (.internalError, s)
      | some v => (.ok, { s with records := s.records.map (sqlUpdateRow v i) })

/-- Outcome of `delete_expense`. -/
inductive DeleteResult
  | ok
  | noSelection
  | cancelled
  deriving DecidableEq

/-- Models `delete_expense`: bail out on no selection, then on a declined
confirmation dialog, then run `DELETE FROM expenses WHERE id=?`. -/
def deleteExpense (s : Store) (selected : Option Nat) (confirmed : Bool) :
    DeleteResult × Store :=
  match selected with
  | none => (.noSelection, s)
  | some i =>
    if confirmed then
      (.ok, { s with records := s.records.filter (fun r => r.id ≠ i) })
    else (.cancelled, s)

/-! ### Amount formatting for the report -/

/-- Digits of a cent count `n` as `intpart.d₁d₂`. -/
def formatCents (n : Nat) : List Char :=
  natDigits (n / 100) ++ ['.', digitChar (n / 10 % 10), digitChar (n % 10)]

/-- Models the f-string `f"{amount:.2f}"` on the rational amount: fixed
point with exactly two digits after the decimal point (the tie-breaking of
the underlying binary float is abstracted as rounding to nearest). -/
def formatAmount (q : ℚ) : String :=
  let c : Int := round (q * 100)
  if c < 0 then ⟨'-' :: formatCents (-c).toNat⟩ else ⟨formatCents c.toNat⟩

/-- The string ends in `.` followed by exactly two digits, and that dot is
its only dot: "formatted to exactly two decimal places". -/
def TwoDecimalPlaces (s : String) : Prop :=
  ∃ pre d₁ d₂, s.data = pre ++ ['.', d₁, d₂] ∧
    isDigitChar d₁ = true ∧ isDigitChar d₂ = true ∧ '.' ∉ pre

/-! ### The report generator (`export_pdf`) -/

/-- reportlab's A4 width in points: 210mm at 72dpi (= 595.27…). -/
def pageWidthA4 : ℚ := 75600 / 127

/-- `image_max_width = page_width - 80`. -/
def imageMaxWidth : ℚ := pageWidthA4 - 80

/-- `scale = min(image_max_width / float(width), 300.0 / float(height))` —
note: no cap at 1.0 anywhere. -/
def imageScale (width height : Nat) : ℚ :=
  min (imageMaxWidth / (width : ℚ)) (300 / (height : ℚ))

/-- `new_w, new_h = width * scale, height * scale`: the size passed to
`drawImage`. -/
def drawnImageSize (width height : Nat) : ℚ × ℚ :=
  ((width : ℚ) * imageScale width height, (height : ℚ) * imageScale width height)

/-- The report models the readable filesystem as a partial map from paths
to decoded image dimensions; `none` is a missing, unreadable or undecodable
file.  `resolveImage` says whether `export_pdf` embeds the image of row `r`
and at which drawn size: the guard `if img_path and os.path.isfile(...)`
plus the `try`-block (any decode/draw failure, including zero dimensions
reaching the float division, is swallowed and the image skipped). -/
def resolveImage (fs : String → Option (Nat × Nat)) (r : Record) :
    Option (ℚ × ℚ) :=
  match r.image_path with
  | none => none
  | some p =>
    if p = "" then none
    else
      match fs p with
      | none => none
      | some (w, h) => if w = 0 ∨ h = 0 then none else some (drawnImageSize w h)

/-- One body row of the report: its 1-based index, the record it renders,
and the six column strings drawn at the header x-offsets. -/
structure ReportRow where
  index : Nat
  record : Record
  cells : List String
  deriving DecidableEq

/-- The content placed on the document: the rows in order and the embedded
images `(record id, drawn size)` in order.  Header text, coordinates, page
breaks and Persian shaping are presentation aspects outside this model. -/
structure Report where
  mission : String
  rows : List ReportRow
  images : List (Nat × (ℚ × ℚ))
  deriving DecidableEq

/-- Errors of the report generator. -/
inductive ExportError
  | noData
  deriving DecidableEq

/-- The six column values of a body row:
`[str(index), date, category, f"{amount:.2f}", description or "", mission or ""]`
(the columns as built in `export_pdf`; `or ""` is the identity on the
always-string fields of this model). -/
def rowValues (index : Nat) (r : Record) : List String :=
  [natStr index, r.date, r.category, formatAmount r.amount, r.description, r.mission]

/-- Models `export_pdf` content for a given mission:
`SELECT * FROM expenses WHERE mission = ? ORDER BY date ASC, id ASC`; no
rows is the "No Data" early return (and no file is produced); otherwise
rows are numbered from 1 and each resolvable image is embedded. -/
def exportPdf (fs : String → Option (Nat × Nat)) (s : Store) (mission : String) :
    Except ExportError Report :=
  let rows := List.insertionSort ReportLE
    (s.records.filter (fun r => r.mission = mission))
  if rows = [] then .error .noData
  else
    .ok
      { mission := mission,
        rows := rows.enum.map
          (fun p => { index := p.1 + 1, record := p.2, cells := rowValues (p.1 + 1) p.2 }),
        images := rows.filterMap
          (fun r => (resolveImage fs r).map (fun sz => (r.id, sz))) }

/-! ### The receipt asset manager (`_save_image_to_receipts`) -/

/-- The wall clock at ingestion time, as `datetime.now()` exposes it
(microsecond resolution; `strftime("%Y%m%d_%H%M%S")` drops `micro`). -/
structure Timestamp where
  year : Nat
  month : Nat
  day : Nat
  hour : Nat
  minute : Nat
  second : Nat
  micro : Nat
  deriving DecidableEq

/-- Equality at second granularity: everything but `micro` agrees. -/
def sameSecond (t u : Timestamp) : Prop :=
  t.year = u.year ∧ t.month = u.month ∧ t.day = u.day ∧
  t.hour = u.hour ∧ t.minute = u.minute ∧ t.second = u.second

/-- Two zero-padded decimal digits (strftime `%m`/`%d`/`%H`/`%M`/`%S`). -/
def pad2 (n : Nat) : List Char := [digitChar (n / 10 % 10), digitChar (n % 10)]

/-- Four zero-padded decimal digits (strftime `%Y` for ordinary years). -/
def pad4 (n : Nat) : List Char :=
  [digitChar (n / 1000 % 10), digitChar (n / 100 % 10),
   digitChar (n / 10 % 10), digitChar (n % 10)]

/-- Models `datetime.now().strftime("%Y%m%d_%H%M%S")`. -/
def fmtTimestamp (t : Timestamp) : String :=
  ⟨pad4 t.year ++ pad2 t.month ++ pad2 t.day ++
    ('_' :: (pad2 t.hour ++ pad2 t.minute ++ pad2 t.second))⟩

/-- Models `os.path.join` for the simple relative-component case used here. -/
def joinPath (a b : String) : String := a ++ "/" ++ b

/-- `receipts_dir()` under the application directory. -/
def receiptsDirOf (appDir : String) : String := joinPath appDir "receipts"

/-- A decoded in-memory image, as far as ingestion inspects it: its PIL
color mode. -/
structure PImage where
  mode : String
  deriving DecidableEq

/-- The file `_save_image_to_receipts` writes: color mode, encoding and
quality of the saved image. -/
structure SavedImage where
  mode : String
  format : String
  quality : Nat
  deriving DecidableEq

/-- Models `_save_image_to_receipts`: target name
`receipt_<YYYYMMDD_HHMMSS>.jpg` in the receipts directory, conversion to
RGB unless the mode is already `RGB` or `L`, JPEG at quality 85; returns
the target path. -/
def saveImageToReceipts (appDir : String) (now : Timestamp) (img : PImage) :
    String × SavedImage :=
  let base := fmtTimestamp now
  let target := joinPath (receiptsDirOf appDir) ("receipt_" ++ base ++ ".jpg")
  let mode := if img.mode = "RGB" ∨ img.mode = "L" then img.mode else "RGB"
  (target, { mode := mode, format := "JPEG", quality := 85 })

/-- The managed directory as a map from path to file content; a plain write
replaces whatever was at the path (`img.save(target, ...)`). -/
def fsWrite (d : String → Option SavedImage) (p : String) (v : SavedImage) :
    String → Option SavedImage :=
  fun q => if q = p then some v else d q

/-! ### Concrete fixtures used by witnesses and counterexamples -/

/-- A stored record with mission `"A"`. -/
def recA : Record :=
  { id := 1, date := "2024-01-01", category := "Food", amount := 1,
    description := "", mission := "A", image_path := none }

/-- A one-record store. -/
def storeA : Store := { records := [recA], nextId := 2 }

/-- A validly filled form. -/
def formB : Form :=
  { dateInput := "2024-01-15", categoryInput := "Food", amountInput := "10",
    descriptionInput := "", missionInput := "", imagePathInput := "",
    currentImagePath := none }

/-! ### Generic facts about the embedded operations -/

/-- The WHERE clause of `filter_expenses` as the conjunction of the
supplied predicates. -/
theorem filterPred_iff (fromS toS : Option String) (mission : String) (r : Record) :
    filterPred fromS toS mission r = true ↔
      ((∀ f, fromS = some f → f.data ≤ r.date.data) ∧
       (∀ t, toS = some t → r.date.data ≤ t.data) ∧
       (mission ≠ "" →
         likeMatch (('%' :: mission.data) ++ ['%']) r.mission.data = true)) := by
  unfold filterPred
  cases fromS <;> cases toS <;> by_cases hm : mission = "" <;>
    simp [hm, and_assoc]

/-! ### C1 -/

/-- C1 (amended): `filter_expenses` returns exactly the stored records that
pass every supplied predicate — `date >= from_date`, `date <= to_date`, and
the mission matching the SQL `LIKE` pattern `%mission_substring%`, which is
substring containment that is case-INsensitive on ASCII letters (with `%`
and `_` in the supplied string acting as wildcards) — in the same
date-descending, id-descending order as `list_all`; omitting all three
predicates returns exactly `list_all`'s output. -/
theorem filter_is_like_conjunction_sorted (s : Store) (fromS toS : Option String)
    (mission : String) :
    (filterExpenses s fromS toS mission).Perm
        (s.records.filter (filterPred fromS toS mission)) ∧
    List.Pairwise ListingLE (filterExpenses s fromS toS mission) ∧
    (∀ r, r ∈ filterExpenses s fromS toS mission ↔
      (r ∈ s.records ∧
        ((∀ f, fromS = some f → f.data ≤ r.date.data) ∧
         (∀ t, toS = some t → r.date.data ≤ t.data) ∧
         (mission ≠ "" →
           likeMatch (('%' :: mission.data) ++ ['%']) r.mission.data = true)))) ∧
    filterExpenses s none none "" = listAll s := by
  refine ⟨List.perm_insertionSort _ _, List.sorted_insertionSort _ _, ?_, ?_⟩
  · intro r
    rw [filterExpenses, (List.perm_insertionSort _ _).mem_iff, List.mem_filter,
      filterPred_iff]
  · rw [filterExpenses, listAll]
    congr 1
    rw [List.filter_eq_self]
    intro a _
    simp [filterPred_iff]

/-- C1 counterexample: filtering with mission substring `"a"` returns the
record whose mission is `"A"` (SQLite `LIKE` is ASCII-case-insensitive),
although `"A"` does not contain `"a"` as a case-sensitive substring — so
the result is not "exactly the records whose mission contains the query as
a case-sensitive substring". -/
theorem filter_mission_case_insensitive :
    filterExpenses storeA none none "a" = [recA] ∧
    containsSubList "a".data recA.mission.data = false := by
  exact ⟨by decide, by decide⟩

/-! ### C6 -/

/-- C6: `list_all` returns all stored records, sorted by date descending
with ties broken by id descending; consequently (ids being unique) of two
records with the same date the one with the larger id comes first. -/
theorem listAll_sorted_date_desc_id_desc (s : Store) (hwf : WF s) :
    (listAll s).Perm s.records ∧
    List.Pairwise ListingLE (listAll s) ∧
    List.Pairwise (fun a b => a.date = b.date → b.id < a.id) (listAll s) := by
  have hperm : (listAll s).Perm s.records := List.perm_insertionSort _ _
  have hsort : List.Pairwise ListingLE (listAll s) := List.sorted_insertionSort _ _
  refine ⟨hperm, hsort, ?_⟩
  have hnd : ((listAll s).map Record.id).Nodup :=
    (hperm.map Record.id).nodup_iff.mpr hwf.1
  have hne : List.Pairwise (fun a b : Record => a.id ≠ b.id) (listAll s) :=
    List.pairwise_map.mp hnd
  refine (hsort.and hne).imp ?_
  rintro a b ⟨hle, hne2⟩ hdate
  rcases hle with hlt | ⟨_, hid⟩
  · exfalso
    rw [hdate] at hlt
    exact lt_irrefl _ hlt
  · exact lt_of_le_of_ne hid (fun e => hne2 e.symm)

/-- Same date, id 1, inserted first. -/
def rec61 : Record :=
  { id := 1, date := "2024-01-01", category := "Food", amount := 2,
    description := "", mission := "", image_path := none }

/-- Same date, id 2, inserted second. -/
def rec62 : Record :=
  { id := 2, date := "2024-01-01", category := "Snapp", amount := 3,
    description := "", mission := "", image_path := none }

/-- The spec's own C6 example store: two records sharing a date. -/
def storeC6 : Store := { records := [rec61, rec62], nextId := 3 }

/-- C6 witness: the ordering theorem applied to the spec's two-record
example (where `list_all` indeed yields id 2 before id 1). -/
theorem listAll_sorted_witness :
    WF storeC6 ∧
    ((listAll storeC6).Perm storeC6.records ∧
     List.Pairwise ListingLE (listAll storeC6) ∧
     List.Pairwise (fun a b => a.date = b.date → b.id < a.id) (listAll storeC6)) :=
  ⟨by decide, listAll_sorted_date_desc_id_desc storeC6 (by decide)⟩

/-! ### C2 -/

/-- After a successful `_validate_form`, `_get_form_values` cannot fail:
the amount parse that validation checked is the one the getter re-runs. -/
theorem getFormValues_of_valid {f : Form} (hv : validateForm f = none) :
    ∃ v, getFormValues f = some v := by
  unfold validateForm at hv
  unfold getFormValues
  cases hd : parseDateStr (pyStrip f.dateInput) with
  | none => rw [hd] at hv; simp at hv
  | some d =>
    rw [hd] at hv
    by_cases hc : pyStrip f.categoryInput = ""
    · simp [hc] at hv
    · simp only [hc, if_false] at hv
      cases ha : amountFromInput f.amountInput with
      | none => rw [ha] at hv; simp at hv
      | some a => exact ⟨_, rfl⟩

/-- C2 (amended): updating or deleting with a selected id that no stored
record carries is a silent no-op — both operations report success, raise no
error of any kind (there is no `NotFoundError` anywhere in the program),
and neither modifies nor removes any record. -/
theorem missing_id_update_delete_noop (s : Store) (i : Nat) (f : Form)
    (hid : ∀ r ∈ s.records, r.id ≠ i) (hv : validateForm f = none) :
    editExpense s (some i) f = (.ok, s) ∧
    deleteExpense s (some i) true = (.ok, s) := by
  obtain ⟨v, hvv⟩ := getFormValues_of_valid hv
  constructor
  · have hmap : s.records.map (sqlUpdateRow v i) = s.records := by
      have h1 : s.records.map (sqlUpdateRow v i) = s.records.map id :=
        List.map_congr_left (fun r hr => by simp [sqlUpdateRow, hid r hr])
      rw [h1, List.map_id]
    simp only [editExpense, hv, hvv, hmap]
  · have hfil : s.records.filter (fun r => r.id ≠ i) = s.records :=
      List.filter_eq_self.mpr (fun r hr => by simp [hid r hr])
    simp only [deleteExpense, if_true, hfil]

/-- C2 counterexample: id 5 is stored nowhere, yet `edit_expense` and
`delete_expense` with selected id 5 both succeed (`.ok`) leaving the store
unchanged — they do not fail with any error, contradicting the claimed
`NotFoundError`. -/
theorem missing_id_no_error :
    storeA.records.filter (fun r => r.id = 5) = [] ∧
    editExpense storeA (some 5) formB = (.ok, storeA) ∧
    deleteExpense storeA (some 5) true = (.ok, storeA) := by
  refine ⟨by decide, ?_, by decide⟩
  with_unfolding_all decide

/-- C2 witness: the amended no-op theorem applied to the concrete store
and the concrete valid form. -/
theorem missing_id_update_delete_noop_witness :
    (∀ r ∈ storeA.records, r.id ≠ 5) ∧ validateForm formB = none ∧
    (editExpense storeA (some 5) formB = (.ok, storeA) ∧
     deleteExpense storeA (some 5) true = (.ok, storeA)) :=
  ⟨by decide, by with_unfolding_all decide,
    missing_id_update_delete_noop storeA 5 formB (by decide)
      (by with_unfolding_all decide)⟩

/-! ### C7 -/

/-- C7: on a valid form (parseable date, non-empty category, non-negative
amount all being checked by `validateForm`), create succeeds, and
`list_all` then holds exactly one record with the fresh id `nextId`; that
record carries exactly the submitted field values, the fresh id differs
from every previously stored id, every old record is still present
unchanged, and nothing else was added. -/
theorem create_then_listAll_exactly_one (s : Store) (f : Form) (hwf : WF s)
    (hv : validateForm f = none) :
    ∃ v, getFormValues f = some v ∧
      (addExpense s f).1 = .ok ∧
      ((listAll (addExpense s f).2).filter (fun r => r.id = s.nextId)).length = 1 ∧
      (∀ r ∈ listAll (addExpense s f).2, r.id = s.nextId →
        r.date = v.date ∧ r.category = v.category ∧ r.amount = v.amount ∧
        r.description = v.description ∧ r.mission = v.mission ∧
        r.image_path = v.image_path) ∧
      (∀ r ∈ s.records, r.id ≠ s.nextId) ∧
      (∀ r ∈ s.records, r ∈ listAll (addExpense s f).2) ∧
      (listAll (addExpense s f).2).length = s.records.length + 1 := by
  obtain ⟨v, hvv⟩ := getFormValues_of_valid hv
  obtain ⟨hnodup, hlt, hamt⟩ := hwf
  refine ⟨v, hvv, ?_⟩
  rw [addExpense, hv, hvv]
  set newRec : Record :=
    { id := s.nextId, date := v.date, category := v.category, amount := v.amount,
      description := v.description, mission := v.mission,
      image_path := v.image_path } with hnew
  set s2 : Store := { records := s.records ++ [newRec], nextId := s.nextId + 1 }
    with hs2
  have hperm : (listAll s2).Perm s2.records := List.perm_insertionSort _ _
  have hfresh : ∀ r ∈ s.records, r.id ≠ s.nextId :=
    fun r hr => Nat.ne_of_lt (hlt r hr)
  refine ⟨rfl, ?_, ?_, hfresh, ?_, ?_⟩
  · have h1 : ((listAll s2).filter (fun r => r.id = s.nextId)).length =
        (s2.records.filter (fun r => r.id = s.nextId)).length :=
      (hperm.filter _).length_eq
    rw [h1, hs2]
    simp only [List.filter_append]
    have h2 : s.records.filter (fun r => decide (r.id = s.nextId)) = [] :=
      List.filter_eq_nil_iff.mpr (fun r hr => by simp [hfresh r hr])
    rw [h2]
    simp [hnew]
  · intro r hr hid
    have hr2 : r ∈ s2.records := hperm.mem_iff.mp hr
    rw [hs2] at hr2
    rcases List.mem_append.mp hr2 with hr3 | hr3
    · exact absurd hid (hfresh r hr3)
    · have : r = newRec := by simpa using hr3
      subst this
      exact ⟨rfl, rfl, rfl, rfl, rfl, rfl⟩
  · intro r hr
    exact hperm.mem_iff.mpr (by rw [hs2]; exact List.mem_append_left _ hr)
  · rw [hperm.length_eq, hs2]
    simp

/-- The form of the C7 witness: its field values all land in the store. -/
def formC7 : Form :=
  { dateInput := "2024-02-03", categoryInput := "Miscellaneous",
    amountInput := "12.5", descriptionInput := "taxi", missionInput := "M1",
    imagePathInput := "", currentImagePath := none }

/-- C7 witness: the create theorem applied to the one-record store and a
concrete valid form. -/
theorem create_then_listAll_exactly_one_witness :
    WF storeA ∧ validateForm formC7 = none ∧
    (∃ v, getFormValues formC7 = some v ∧
      (addExpense storeA formC7).1 = .ok ∧
      ((listAll (addExpense storeA formC7).2).filter
          (fun r => r.id = storeA.nextId)).length = 1 ∧
      (∀ r ∈ listAll (addExpense storeA formC7).2, r.id = storeA.nextId →
        r.date = v.date ∧ r.category = v.category ∧ r.amount = v.amount ∧
        r.description = v.description ∧ r.mission = v.mission ∧
        r.image_path = v.image_path) ∧
      (∀ r ∈ storeA.records, r.id ≠ storeA.nextId) ∧
      (∀ r ∈ storeA.records, r ∈ listAll (addExpense storeA formC7).2) ∧
      (listAll (addExpense storeA formC7).2).length =
        storeA.records.length + 1) :=
  ⟨by decide, by with_unfolding_all decide,
    create_then_listAll_exactly_one storeA formC7 (by decide)
      (by with_unfolding_all decide)⟩

/-! ### Digit and formatting lemmas -/

/-- `digitChar` of a value below 10 is a decimal digit character. -/
theorem isDigit_digitChar (n : Nat) (h : n < 10) :
    isDigitChar (digitChar n) = true := by
  interval_cases n <;> decide

/-- Every character `natDigitsGo` emits is a decimal digit. -/
theorem natDigitsGo_all_digits (fuel : Nat) :
    ∀ n, ∀ c ∈ natDigitsGo fuel n, isDigitChar c = true := by
  induction fuel with
  | zero =>
    intro n c hc
    simp only [natDigitsGo, List.mem_singleton] at hc
    subst hc
    exact isDigit_digitChar _ (Nat.mod_lt _ (by omega))
  | succ fuel ih =>
    intro n c hc
    by_cases h : n < 10
    · simp only [natDigitsGo, if_pos h, List.mem_singleton] at hc
      subst hc
      exact isDigit_digitChar _ h
    · simp only [natDigitsGo, if_neg h, List.mem_append, List.mem_singleton] at hc
      rcases hc with hc | hc
      · exact ih _ c hc
      · subst hc
        exact isDigit_digitChar _ (Nat.mod_lt _ (by omega))

/-- Every character of `natDigits n` is a decimal digit. -/
theorem natDigits_all_digits (n : Nat) :
    ∀ c ∈ natDigits n, isDigitChar c = true :=
  natDigitsGo_all_digits n n

/-- `round` of a non-negative rational is non-negative. -/
theorem round_nonneg_rat (q : ℚ) (hq : 0 ≤ q) : 0 ≤ round q := by
  rw [round_eq]
  exact Int.le_floor.mpr (by push_cast; linarith)

/-- `formatAmount` of a non-negative amount has exactly two decimal
places: it ends in a dot followed by two digits and contains no other
dot. -/
theorem formatAmount_twoDecimal (q : ℚ) (hq : 0 ≤ q) :
    TwoDecimalPlaces (formatAmount q) := by
  have h0 : ¬ round (q * 100) < 0 := by
    rw [not_lt]
    exact round_nonneg_rat _ (by positivity)
  refine ⟨natDigits ((round (q * 100)).toNat / 100),
    digitChar ((round (q * 100)).toNat / 10 % 10),
    digitChar ((round (q * 100)).toNat % 10), ?_, ?_, ?_, ?_⟩
  · show (formatAmount q).data = _
    simp only [formatAmount]
    rw [if_neg h0]
    rfl
  · exact isDigit_digitChar _ (Nat.mod_lt _ (by omega))
  · exact isDigit_digitChar _ (Nat.mod_lt _ (by omega))
  · intro hmem
    exact absurd (natDigits_all_digits _ _ hmem) (by decide)

/-! ### C4 -/

/-- C4: when no stored record's mission equals the requested mission
exactly, the export fails with the no-data error and produces no report —
proper-substring containment does not count, since the query tests exact
equality. -/
theorem export_unknown_mission_noData (fs : String → Option (Nat × Nat))
    (s : Store) (m : String) (h : ∀ r ∈ s.records, r.mission ≠ m) :
    exportPdf fs s m = .error .noData := by
  have hfil : s.records.filter (fun r => r.mission = m) = [] :=
    List.filter_eq_nil_iff.mpr (fun r hr => by simp [h r hr])
  simp [exportPdf, hfil]

/-- A record whose mission strictly contains `"Alpha"`. -/
def recC4 : Record :=
  { id := 1, date := "2024-01-01", category := "Food", amount := 5,
    description := "", mission := "Alpha1", image_path := none }

/-- The C4 witness store. -/
def storeC4 : Store := { records := [recC4], nextId := 2 }

/-- A filesystem with no readable images. -/
def fsEmpty : String → Option (Nat × Nat) := fun _ => none

/-- C4 witness: mission `"Alpha"` matches no record exactly though
`"Alpha1"` contains it as a proper substring, and export errors with no
data. -/
theorem export_unknown_mission_noData_witness :
    (∀ r ∈ storeC4.records, r.mission ≠ "Alpha") ∧
    containsSubList "Alpha".data recC4.mission.data = true ∧
    exportPdf fsEmpty storeC4 "Alpha" = .error .noData :=
  ⟨by decide, by decide,
    export_unknown_mission_noData fsEmpty storeC4 "Alpha" (by decide)⟩

/-! ### C5 and C8: the successful export -/

/-- With at least one matching record, `exportPdf` succeeds, rows being
the enumeration of the ascending-sorted matches and images their resolved
attachments. -/
theorem exportPdf_ok (fs : String → Option (Nat × Nat)) (s : Store) (m : String)
    (h : ∃ r ∈ s.records, r.mission = m) :
    exportPdf fs s m = .ok
      { mission := m,
        rows := (List.insertionSort ReportLE
            (s.records.filter (fun r => r.mission = m))).enum.map
          (fun p => { index := p.1 + 1, record := p.2,
                      cells := rowValues (p.1 + 1) p.2 }),
        images := (List.insertionSort ReportLE
            (s.records.filter (fun r => r.mission = m))).filterMap
          (fun r => (resolveImage fs r).map (fun sz => (r.id, sz))) } := by
  obtain ⟨r, hr, hm⟩ := h
  have hne : List.insertionSort ReportLE
      (s.records.filter (fun r => r.mission = m)) ≠ [] := by
    intro he
    have hmem : r ∈ s.records.filter (fun r => r.mission = m) :=
      List.mem_filter.mpr ⟨hr, by simp [hm]⟩
    have hmem2 := (List.perm_insertionSort ReportLE _).mem_iff.mpr hmem
    rw [he] at hmem2
    exact List.not_mem_nil _ hmem2
  simp only [exportPdf]
  rw [if_neg hne]

/-- C5: for a mission with at least one matching record the report renders
exactly the matching records, ordered date ascending with id-ascending tie
break (the reverse of the listing order), numbers the rows starting at 1,
and each row's cells are the six column values with the amount formatted
to exactly two decimal places. -/
theorem report_rows_chronological_indexed (fs : String → Option (Nat × Nat))
    (s : Store) (m : String) (hwf : WF s) (h : ∃ r ∈ s.records, r.mission = m) :
    ∃ rep, exportPdf fs s m = .ok rep ∧
      (rep.rows.map ReportRow.record).Perm
          (s.records.filter (fun r => r.mission = m)) ∧
      List.Pairwise ReportLE (rep.rows.map ReportRow.record) ∧
      rep.rows.map ReportRow.index = List.range' 1 rep.rows.length ∧
      (∀ row ∈ rep.rows, row.cells = rowValues row.index row.record) ∧
      (∀ row ∈ rep.rows,
        row.cells.get? 3 = some (formatAmount row.record.amount)) ∧
      (∀ row ∈ rep.rows, TwoDecimalPlaces (formatAmount row.record.amount)) := by
  set sorted := List.insertionSort ReportLE
    (s.records.filter (fun r => r.mission = m)) with hsorted
  set rows := sorted.enum.map
    (fun p => ({ index := p.1 + 1, record := p.2,
                 cells := rowValues (p.1 + 1) p.2 } : ReportRow)) with hrows
  have hmap : rows.map ReportRow.record = sorted := by
    rw [hrows, List.map_map]
    exact List.enum_map_snd sorted
  have hperm : sorted.Perm (s.records.filter (fun r => r.mission = m)) :=
    List.perm_insertionSort _ _
  have hsort : List.Pairwise ReportLE sorted := List.sorted_insertionSort _ _
  refine ⟨{ mission := m, rows := rows,
            images := sorted.filterMap
              (fun r => (resolveImage fs r).map (fun sz => (r.id, sz))) },
    exportPdf_ok fs s m h, ?_, ?_, ?_, ?_, ?_, ?_⟩
  · show (rows.map ReportRow.record).Perm _
    rw [hmap]
    exact hperm
  · show List.Pairwise ReportLE (rows.map ReportRow.record)
    rw [hmap]
    exact hsort
  · show rows.map ReportRow.index = List.range' 1 rows.length
    have hlen : rows.length = sorted.length := by
      rw [hrows, List.length_map, List.enum_length]
    rw [hlen, hrows, List.map_map]
    have h2 : sorted.enum.map (fun p : Nat × Record => p.1 + 1) =
        (sorted.enum.map Prod.fst).map (fun x => x + 1) := by
      rw [List.map_map]
      rfl
    calc (List.map (ReportRow.index ∘ fun p : Nat × Record =>
            ({ index := p.1 + 1, record := p.2,
               cells := rowValues (p.1 + 1) p.2 } : ReportRow)) sorted.enum)
        = sorted.enum.map (fun p : Nat × Record => p.1 + 1) := rfl
      _ = (sorted.enum.map Prod.fst).map (fun x => x + 1) := h2
      _ = (List.range sorted.length).map (fun x => x + 1) := by
            rw [List.enum_map_fst]
      _ = List.range' 1 sorted.length := by
            rw [List.range'_eq_map_range]
            exact List.map_congr_left (fun x _ => Nat.add_comm x 1)
  · show ∀ row ∈ rows, row.cells = rowValues row.index row.record
    intro row hrow
    rw [hrows] at hrow
    obtain ⟨p, _, hgp⟩ := List.mem_map.mp hrow
    subst hgp
    rfl
  · show ∀ row ∈ rows,
        row.cells.get? 3 = some (formatAmount row.record.amount)
    intro row hrow
    rw [hrows] at hrow
    obtain ⟨p, _, hgp⟩ := List.mem_map.mp hrow
    subst hgp
    rfl
  · show ∀ row ∈ rows, TwoDecimalPlaces (formatAmount row.record.amount)
    intro row hrow
    have hmem : row.record ∈ sorted := by
      rw [← hmap]
      exact List.mem_map_of_mem ReportRow.record hrow
    have hmem2 : row.record ∈ s.records :=
      (List.mem_filter.mp (hperm.mem_iff.mp hmem)).1
    exact formatAmount_twoDecimal _ (hwf.2.2 _ hmem2)

/-- The spec's C5 example: mission `"M"`, the later date inserted first. -/
def recC5a : Record :=
  { id := 1, date := "2024-03-01", category := "Food", amount := 7,
    description := "", mission := "M", image_path := none }

/-- The spec's C5 example, second insert, earlier date. -/
def recC5b : Record :=
  { id := 2, date := "2024-02-01", category := "Food", amount := 8,
    description := "", mission := "M", image_path := none }

/-- The C5 witness store. -/
def storeC5 : Store := { records := [recC5a, recC5b], nextId := 3 }

/-- C5 witness: the row theorem applied to the spec's two-record mission
`"M"` example. -/
theorem report_rows_chronological_indexed_witness :
    WF storeC5 ∧ (∃ r ∈ storeC5.records, r.mission = "M") ∧
    (∃ rep, exportPdf fsEmpty storeC5 "M" = .ok rep ∧
      (rep.rows.map ReportRow.record).Perm
          (storeC5.records.filter (fun r => r.mission = "M")) ∧
      List.Pairwise ReportLE (rep.rows.map ReportRow.record) ∧
      rep.rows.map ReportRow.index = List.range' 1 rep.rows.length ∧
      (∀ row ∈ rep.rows, row.cells = rowValues row.index row.record) ∧
      (∀ row ∈ rep.rows,
        row.cells.get? 3 = some (formatAmount row.record.amount)) ∧
      (∀ row ∈ rep.rows, TwoDecimalPlaces (formatAmount row.record.amount))) :=
  ⟨by decide, by decide,
    report_rows_chronological_indexed fsEmpty storeC5 "M" (by decide) (by decide)⟩

/-! ### C8 -/

/-- C8: export succeeds whatever the filesystem holds; every matching
record gets its row whether or not its image resolves, the embedded images
are exactly the attachments of matching records whose file exists and
decodes, and every embedded image comes from such a record — so a missing
or unreadable image is skipped without affecting the rest. -/
theorem report_completes_skipping_bad_images (fs : String → Option (Nat × Nat))
    (s : Store) (m : String) (hwf : WF s) (h : ∃ r ∈ s.records, r.mission = m) :
    ∃ rep, exportPdf fs s m = .ok rep ∧
      (∀ r ∈ s.records, r.mission = m → ∃ row ∈ rep.rows, row.record = r) ∧
      (∀ r ∈ s.records, r.mission = m →
        (resolveImage fs r ≠ none ↔ ∃ e ∈ rep.images, e.1 = r.id)) ∧
      (∀ e ∈ rep.images, ∃ r ∈ s.records, r.mission = m ∧
        resolveImage fs r = some e.2) := by
  set sorted := List.insertionSort ReportLE
    (s.records.filter (fun r => r.mission = m)) with hsorted
  set rows := sorted.enum.map
    (fun p => ({ index := p.1 + 1, record := p.2,
                 cells := rowValues (p.1 + 1) p.2 } : ReportRow)) with hrows
  have hmap : rows.map ReportRow.record = sorted := by
    rw [hrows, List.map_map]
    exact List.enum_map_snd sorted
  have hperm : sorted.Perm (s.records.filter (fun r => r.mission = m)) :=
    List.perm_insertionSort _ _
  have hmemsort : ∀ r ∈ s.records, r.mission = m → r ∈ sorted := by
    intro r hr hm
    exact hperm.mem_iff.mpr (List.mem_filter.mpr ⟨hr, by simp [hm]⟩)
  refine ⟨{ mission := m, rows := rows,
            images := sorted.filterMap
              (fun r => (resolveImage fs r).map (fun sz => (r.id, sz))) },
    exportPdf_ok fs s m h, ?_, ?_, ?_⟩
  · intro r hr hm
    show ∃ row ∈ rows, row.record = r
    have : r ∈ rows.map ReportRow.record := by
      rw [hmap]
      exact hmemsort r hr hm
    obtain ⟨row, hrow, hrec⟩ := List.mem_map.mp this
    exact ⟨row, hrow, hrec⟩
  · intro r hr hm
    constructor
    · intro hres
      obtain ⟨sz, hsz⟩ := Option.ne_none_iff_exists'.mp hres
      refine ⟨(r.id, sz), ?_, rfl⟩
      show (r.id, sz) ∈ sorted.filterMap _
      exact List.mem_filterMap.mpr ⟨r, hmemsort r hr hm, by rw [hsz]; rfl⟩
    · rintro ⟨e, he, hid⟩
      obtain ⟨r2, hr2, hfe⟩ := List.mem_filterMap.mp he
      obtain ⟨sz, hsz, hesz⟩ := Option.map_eq_some'.mp hfe
      have hr2s : r2 ∈ s.records :=
        (List.mem_filter.mp (hperm.mem_iff.mp hr2)).1
      have hideq : r2.id = r.id := by
        rw [← hid, ← hesz]
      have hr2r : r2 = r :=
        List.inj_on_of_nodup_map hwf.1 hr2s hr hideq
      rw [← hr2r, hsz]
      exact Option.some_ne_none sz
  · intro e he
    obtain ⟨r2, hr2, hfe⟩ := List.mem_filterMap.mp he
    obtain ⟨sz, hsz, hesz⟩ := Option.map_eq_some'.mp hfe
    have hr2f := List.mem_filter.mp (hperm.mem_iff.mp hr2)
    refine ⟨r2, hr2f.1, by simpa using hr2f.2, ?_⟩
    rw [hsz, ← hesz]

/-- A mission-`"M"` record whose image file exists and decodes. -/
def recC8a : Record :=
  { id := 1, date := "2024-01-01", category := "Food", amount := 4,
    description := "", mission := "M", image_path := some "a.jpg" }

/-- A mission-`"M"` record whose image file is missing. -/
def recC8b : Record :=
  { id := 2, date := "2024-01-02", category := "Food", amount := 6,
    description := "", mission := "M", image_path := some "b.jpg" }

/-- The C8 witness store. -/
def storeC8 : Store := { records := [recC8a, recC8b], nextId := 3 }

/-- A filesystem where only `a.jpg` exists (a 100×50 image). -/
def fsC8 : String → Option (Nat × Nat) :=
  fun p => if p = "a.jpg" then some (100, 50) else none

/-- C8 witness: one existing and one missing image file. -/
theorem report_completes_skipping_bad_images_witness :
    WF storeC8 ∧ (∃ r ∈ storeC8.records, r.mission = "M") ∧
    (∃ rep, exportPdf fsC8 storeC8 "M" = .ok rep ∧
      (∀ r ∈ storeC8.records, r.mission = "M" →
        ∃ row ∈ rep.rows, row.record = r) ∧
      (∀ r ∈ storeC8.records, r.mission = "M" →
        (resolveImage fsC8 r ≠ none ↔ ∃ e ∈ rep.images, e.1 = r.id)) ∧
      (∀ e ∈ rep.images, ∃ r ∈ storeC8.records, r.mission = "M" ∧
        resolveImage fsC8 r = some e.2)) :=
  ⟨by decide, by decide,
    report_completes_skipping_bad_images fsC8 storeC8 "M" (by decide) (by decide)⟩

/-! ### C3 -/

/-- C3 (amended): the drawn size is `(width * scale, height * scale)` with
`scale = min(content_width / width, 300 / height)` and no cap at 1.0: the
drawn image always fits the content-width × 300 box and exactly touches it
on one side, the aspect ratio is preserved, and an image whose natural
size already fits inside the box gets `scale ≥ 1` — it is scaled UP to the
box, not placed at its natural size. -/
theorem image_scaled_to_touch_box (w h : Nat) (hw : 0 < w) (hh : 0 < h) :
    drawnImageSize w h =
      ((w : ℚ) * imageScale w h, (h : ℚ) * imageScale w h) ∧
    (drawnImageSize w h).1 ≤ imageMaxWidth ∧
    (drawnImageSize w h).2 ≤ 300 ∧
    ((drawnImageSize w h).1 = imageMaxWidth ∨ (drawnImageSize w h).2 = 300) ∧
    (drawnImageSize w h).1 * (h : ℚ) = (drawnImageSize w h).2 * (w : ℚ) ∧
    ((w : ℚ) ≤ imageMaxWidth → (h : ℚ) ≤ 300 → 1 ≤ imageScale w h) := by
  have hw0 : (0 : ℚ) < (w : ℚ) := by exact_mod_cast hw
  have hh0 : (0 : ℚ) < (h : ℚ) := by exact_mod_cast hh
  have hwa : (w : ℚ) * (imageMaxWidth / (w : ℚ)) = imageMaxWidth := by
    rw [mul_comm, div_mul_cancel₀ _ (ne_of_gt hw0)]
  have hhb : (h : ℚ) * (300 / (h : ℚ)) = 300 := by
    rw [mul_comm, div_mul_cancel₀ _ (ne_of_gt hh0)]
  refine ⟨rfl, ?_, ?_, ?_, ?_, ?_⟩
  · show (w : ℚ) * imageScale w h ≤ imageMaxWidth
    calc (w : ℚ) * imageScale w h
        ≤ (w : ℚ) * (imageMaxWidth / (w : ℚ)) :=
          mul_le_mul_of_nonneg_left (min_le_left _ _) (le_of_lt hw0)
      _ = imageMaxWidth := hwa
  · show (h : ℚ) * imageScale w h ≤ 300
    calc (h : ℚ) * imageScale w h
        ≤ (h : ℚ) * (300 / (h : ℚ)) :=
          mul_le_mul_of_nonneg_left (min_le_right _ _) (le_of_lt hh0)
      _ = 300 := hhb
  · rcases min_choice (imageMaxWidth / (w : ℚ)) (300 / (h : ℚ)) with hm | hm
    · left
      show (w : ℚ) * imageScale w h = imageMaxWidth
      rw [imageScale, hm, hwa]
    · right
      show (h : ℚ) * imageScale w h = 300
      rw [imageScale, hm, hhb]
  · show (w : ℚ) * imageScale w h * (h : ℚ) =
        (h : ℚ) * imageScale w h * (w : ℚ)
    ring
  · intro hwfit hhfit
    refine le_min ?_ ?_
    · exact (one_le_div hw0).mpr hwfit
    · exact (one_le_div hh0).mpr hhfit

/-- C3 counterexample: a 10×10 image fits comfortably inside the
content-width × 300 box, yet is drawn at 300×300 — upscaled by factor 30,
not placed at its natural size and with no cap of the scale at 1.0. -/
theorem small_image_upscaled :
    (10 : ℚ) ≤ imageMaxWidth ∧ (10 : ℚ) ≤ 300 ∧
    imageScale 10 10 = 30 ∧
    drawnImageSize 10 10 = (300, 300) ∧
    drawnImageSize 10 10 ≠ ((10 : ℚ), (10 : ℚ)) := by
  with_unfolding_all decide

/-- C3 witness: the amended scaling theorem applied to the 10×10 image. -/
theorem image_scaled_to_touch_box_witness :
    0 < 10 ∧
    (drawnImageSize 10 10 =
      ((10 : ℚ) * imageScale 10 10, (10 : ℚ) * imageScale 10 10) ∧
    (drawnImageSize 10 10).1 ≤ imageMaxWidth ∧
    (drawnImageSize 10 10).2 ≤ 300 ∧
    ((drawnImageSize 10 10).1 = imageMaxWidth ∨
      (drawnImageSize 10 10).2 = 300) ∧
    (drawnImageSize 10 10).1 * (10 : ℚ) =
      (drawnImageSize 10 10).2 * (10 : ℚ) ∧
    ((10 : ℚ) ≤ imageMaxWidth → (10 : ℚ) ≤ 300 → 1 ≤ imageScale 10 10)) :=
  ⟨by decide, image_scaled_to_touch_box 10 10 (by decide) (by decide)⟩

/-! ### C9 -/

/-- C9: ingestion writes a JPEG at quality 85 named
`receipt_<YYYYMMDD_HHMMSS>.jpg` in the managed receipts directory and
returns that path; the color mode is kept for `RGB` and `L` sources and
converted to `RGB` otherwise; the name has second granularity, so two
ingests in the same second target the same path, and a later write to a
path replaces the earlier file. -/
theorem ingest_timestamped_jpeg (appDir : String) (t : Timestamp) (img : PImage) :
    (saveImageToReceipts appDir t img).1 =
      joinPath (receiptsDirOf appDir) ("receipt_" ++ fmtTimestamp t ++ ".jpg") ∧
    (saveImageToReceipts appDir t img).2.format = "JPEG" ∧
    (saveImageToReceipts appDir t img).2.quality = 85 ∧
    (saveImageToReceipts appDir t img).2.mode =
      (if img.mode = "RGB" ∨ img.mode = "L" then img.mode else "RGB") ∧
    (∀ u : Timestamp, sameSecond t u →
      (saveImageToReceipts appDir t img).1 =
        (saveImageToReceipts appDir u img).1) ∧
    (∀ (d : String → Option SavedImage) (p : String) (a b : SavedImage),
      fsWrite (fsWrite d p a) p b p = some b) := by
  refine ⟨rfl, rfl, rfl, rfl, ?_, ?_⟩
  · intro u hs
    obtain ⟨h1, h2, h3, h4, h5, h6⟩ := hs
    show joinPath _ ("receipt_" ++ fmtTimestamp t ++ ".jpg") =
      joinPath _ ("receipt_" ++ fmtTimestamp u ++ ".jpg")
    rw [fmtTimestamp, fmtTimestamp, h1, h2, h3, h4, h5, h6]
  · intro d p a b
    simp [fsWrite]

/-- A timestamp fixture (with non-zero microseconds). -/
def ts0 : Timestamp :=
  { year := 2024, month := 1, day := 2, hour := 3, minute := 4, second := 5,
    micro := 6 }

/-- An image fixture in a mode that forces RGB conversion. -/
def imgRGBA : PImage := { mode := "RGBA" }

/-- C9 witness: the ingestion theorem applied to a concrete directory,
timestamp and RGBA image. -/
theorem ingest_timestamped_jpeg_witness :
    (saveImageToReceipts "app" ts0 imgRGBA).1 =
      joinPath (receiptsDirOf "app")
        ("receipt_" ++ fmtTimestamp ts0 ++ ".jpg") ∧
    (saveImageToReceipts "app" ts0 imgRGBA).2.format = "JPEG" ∧
    (saveImageToReceipts "app" ts0 imgRGBA).2.quality = 85 ∧
    (saveImageToReceipts "app" ts0 imgRGBA).2.mode =
      (if imgRGBA.mode = "RGB" ∨ imgRGBA.mode = "L" then imgRGBA.mode
       else "RGB") ∧
    (∀ u : Timestamp, sameSecond ts0 u →
      (saveImageToReceipts "app" ts0 imgRGBA).1 =
        (saveImageToReceipts "app" u imgRGBA).1) ∧
    (∀ (d : String → Option SavedImage) (p : String) (a b : SavedImage),
      fsWrite (fsWrite d p a) p b p = some b) :=
  ingest_timestamped_jpeg "app" ts0 imgRGBA

/-! ### C10 -/

/-- The form of the C10 example: amount typed with a thousands comma. -/
def formC10 : Form :=
  { dateInput := "2024-01-15", categoryInput := "Food",
    amountInput := "1,000", descriptionInput := "", missionInput := "",
    imagePathInput := "", currentImagePath := none }

set_option maxRecDepth 1000000 in
/-- C10: a comma-bearing amount string is accepted by the shared
create/update validation: `float("1,000")` itself would fail, but every
comma is removed before parsing (the pipeline is strip, then
`.replace(",", "")`, then `float`), so `"1,000"` validates and is stored
as the number 1000. -/
theorem comma_amounts_accepted :
    pyFloat "1,000" = none ∧
    amountFromInput "1,000" = some 1000 ∧
    validateForm formC10 = none ∧
    (getFormValues formC10).map FormValues.amount = some 1000 ∧
    (∀ s : String, amountFromInput s = pyFloat (removeCommas (pyStrip s))) := by
  refine ⟨by decide, by with_unfolding_all decide,
    by with_unfolding_all decide, by with_unfolding_all decide, fun s => rfl⟩

end ExpenseTracker
